import Mathlib

/-!
Shallow embedding of `bereal-date-correcter.py` and verification of its
specification claims.

The program scans a source directory for subfolders named
`YYYY-MM-DD-HH-MM-SS`, copies a fixed set of media files out of each into a
flat destination directory under the name `<folder-name>-<original-name>`
(numerically suffixed on collision), and stamps each copy with the instant
encoded in the folder name.

Modelling conventions:
- Strings are Lean `String` (a wrapper around `List Char`).
- The regular expression `^(\d{4})-(\d{2})-(\d{2})-(\d{2})-(\d{2})-(\d{2})$`
  is embedded as an explicit match on the character list.  `\d` is modelled
  as an ASCII digit.  The Python anchor `$` also matches just before one
  trailing newline, and the embedding keeps that behaviour.
- The filesystem visible to the program is explicit data: the directory
  entries of the source directory, the set of occupied names in the
  destination directory, and an oracle giving the host local-timezone offset
  returned by the k-th query of the run.
- Exceptions are `Except`; the driver catches exactly what the code catches.
-/

namespace BeReal

/-- TARGET_FILES from the source: the only file names copied, matched on the
lowercased name. -/
def TARGET_FILES : List String := ["merged.jpg", "primary.jpg", "secondary.jpg", "video.mp4"]

/-- Numeric value of an ASCII digit character. -/
def digitVal (c : Char) : Nat := c.toNat - 48

/-- Value of a two-digit group, as Python int applied to the group. -/
def val2 (a b : Char) : Nat := 10 * digitVal a + digitVal b

/-- Value of a four-digit group, as Python int applied to the group. -/
def val4 (a b c d : Char) : Nat :=
  1000 * digitVal a + 100 * digitVal b + 10 * digitVal c + digitVal d

/-- The six integer groups extracted by FOLDER_RE. -/
structure FolderFields where
  y : Nat
  mo : Nat
  d : Nat
  h : Nat
  mi : Nat
  s : Nat
deriving DecidableEq, Repr

/-- Core of FOLDER_RE: exactly 19 characters, digit groups of widths
4,2,2,2,2,2 separated by hyphens.  Returns the six groups on a match. -/
def coreParse : List Char → Option FolderFields
  | [y1, y2, y3, y4, c1, a1, a2, c2, b1, b2, c3, h1, h2, c4, m1, m2, c5, s1, s2] =>
    if (c1 = '-' ∧ c2 = '-' ∧ c3 = '-' ∧ c4 = '-' ∧ c5 = '-') ∧
       (y1.isDigit ∧ y2.isDigit ∧ y3.isDigit ∧ y4.isDigit) ∧
       (a1.isDigit ∧ a2.isDigit) ∧ (b1.isDigit ∧ b2.isDigit) ∧
       (h1.isDigit ∧ h2.isDigit) ∧ (m1.isDigit ∧ m2.isDigit) ∧
       (s1.isDigit ∧ s2.isDigit) then
      some ⟨val4 y1 y2 y3 y4, val2 a1 a2, val2 b1 b2, val2 h1 h2, val2 m1 m2, val2 s1 s2⟩
    else none
  | _ => none

/-- FOLDER_RE.match on a string: the core pattern, where the `$` anchor also
accepts one trailing newline (Python `$` semantics). -/
def folderReParse (s : String) : Option FolderFields :=
  match coreParse s.data with
  | some g => some g
  | none =>
    match s.data.getLast? with
    | some c => if c = '\n' then coreParse s.data.dropLast else none
    | none => none

/-- Gregorian leap-year rule used by Python datetime. -/
def isLeap (y : Nat) : Bool := y % 4 = 0 && (y % 100 ≠ 0 || y % 400 = 0)

/-- Days in a month, as validated by the Python datetime constructor. -/
def daysInMonth (y mo : Nat) : Nat :=
  match mo with
  | 1 => 31
  | 2 => if isLeap y then 29 else 28
  | 3 => 31
  | 4 => 30
  | 5 => 31
  | 6 => 30
  | 7 => 31
  | 8 => 31
  | 9 => 30
  | 10 => 31
  | 11 => 30
  | 12 => 31
  | _ => 0

/-- Validation performed by the Python datetime constructor: it raises
ValueError unless all fields are in range. -/
def datetimeValid (f : FolderFields) : Bool :=
  1 ≤ f.y && f.y ≤ 9999 && 1 ≤ f.mo && f.mo ≤ 12 &&
  1 ≤ f.d && f.d ≤ daysInMonth f.y f.mo &&
  f.h ≤ 23 && f.mi ≤ 59 && f.s ≤ 59

/-- A tzinfo value: timezone.utc, or a fixed local offset in minutes as
produced by the astimezone query. -/
inductive Tz where
  | utc : Tz
  | localOffset : Int → Tz
deriving DecidableEq, Repr

/-- A timezone-aware Python datetime value as built by parse_folder_datetime. -/
structure PyDatetime where
  year : Nat
  month : Nat
  day : Nat
  hour : Nat
  minute : Nat
  second : Nat
  tz : Option Tz
deriving DecidableEq, Repr

/-- parse_folder_datetime from the source.  `tzNow` is the value the host
returns for the local-timezone query performed inside the function (the
query only happens on the non-UTC success path).  Raising is modelled as
`Except.error`. -/
def parse_folder_datetime (tzNow : Tz) (folder_name : String) (use_utc : Bool) :
    Except String PyDatetime :=
  match folderReParse folder_name with
  | none =>
    .error ("Folder name does not match pattern YYYY-MM-DD-HH-MM-SS: " ++ folder_name)
  | some f =>
    if datetimeValid f then
      .ok { year := f.y, month := f.mo, day := f.d, hour := f.h, minute := f.mi,
            second := f.s, tz := some (if use_utc then Tz.utc else tzNow) }
    else
      .error "ValueError: invalid datetime fields"

/-- Index of the last dot in a character list, as Python rfind. -/
def lastDotIdx (l : List Char) : Option Nat :=
  match l.reverse.findIdx? (· == '.') with
  | some k => some (l.length - 1 - k)
  | none => none

/-- Split of a path name into Python pathlib stem and suffix data: the split
is at the last dot when that dot is neither the first nor the last
character, otherwise the suffix is empty. -/
def splitName (l : List Char) : List Char × List Char :=
  match lastDotIdx l with
  | some i => if 0 < i ∧ i < l.length - 1 then (l.take i, l.drop i) else (l, [])
  | none => (l, [])

/-- Python pathlib stem of the final path component. -/
def pathStem (s : String) : String := ⟨(splitName s.data).1⟩

/-- Python pathlib suffix of the final path component, dot included. -/
def pathSuffix (s : String) : String := ⟨(splitName s.data).2⟩

/-- Decimal representation of a natural number, as Python str. -/
def pyStr (n : Nat) : String :=
  if n = 0 then "0" else ⟨((Nat.digits 10 n).map Nat.digitChar).reverse⟩

/-- The i-th probe candidate of ensure_unique_path: stem-i followed by the
suffix. -/
def candidate (stem sfx : String) (i : Nat) : String :=
  stem ++ "-" ++ pyStr i ++ sfx

theorem splitName_append (l : List Char) : (splitName l).1 ++ (splitName l).2 = l := by
  unfold splitName
  cases lastDotIdx l with
  | none => simp
  | some i =>
    by_cases h : 0 < i ∧ i < l.length - 1
    · simp [h]
    · simp [h]

theorem pathStem_append_pathSuffix (name : String) :
    (pathStem name).data ++ (pathSuffix name).data = name.data := by
  simpa [pathStem, pathSuffix] using splitName_append name.data

theorem digitVal_digitChar (k : Nat) (hk : k < 10) : digitVal (Nat.digitChar k) = k := by
  interval_cases k <;> rfl

theorem map_digitChar_inj {l1 l2 : List Nat} (h1 : ∀ x ∈ l1, x < 10)
    (h2 : ∀ x ∈ l2, x < 10) (h : l1.map Nat.digitChar = l2.map Nat.digitChar) :
    l1 = l2 := by
  have h3 := congrArg (List.map digitVal) h
  rw [List.map_map, List.map_map] at h3
  have e1 : l1.map (digitVal ∘ Nat.digitChar) = l1.map id :=
    List.map_congr_left fun x hx => digitVal_digitChar x (h1 x hx)
  have e2 : l2.map (digitVal ∘ Nat.digitChar) = l2.map id :=
    List.map_congr_left fun x hx => digitVal_digitChar x (h2 x hx)
  rw [e1, e2, List.map_id, List.map_id] at h3
  exact h3

theorem pyStr_pos_inj {m n : Nat} (hm : 1 ≤ m) (hn : 1 ≤ n)
    (h : (pyStr m).data = (pyStr n).data) : m = n := by
  unfold pyStr at h
  rw [if_neg (by omega), if_neg (by omega)] at h
  have h2 : ((Nat.digits 10 m).map Nat.digitChar).reverse
      = ((Nat.digits 10 n).map Nat.digitChar).reverse := h
  have h3 := List.reverse_injective h2
  have h4 := map_digitChar_inj
    (fun x hx => Nat.digits_lt_base (by norm_num) hx)
    (fun x hx => Nat.digits_lt_base (by norm_num) hx) h3
  exact Nat.digits.injective 10 h4

theorem candidate_data (stem sfx : String) (i : Nat) :
    (candidate stem sfx i).data = stem.data ++ '-' :: ((pyStr i).data ++ sfx.data) := by
  simp [candidate, String.data_append]

theorem candidate_inj (stem sfx : String) {i j : Nat} (hi : 1 ≤ i) (hj : 1 ≤ j)
    (h : candidate stem sfx i = candidate stem sfx j) : i = j := by
  have hd := congrArg String.data h
  rw [candidate_data, candidate_data] at hd
  have hd2 := List.append_cancel_left hd
  have hd3 : (pyStr i).data ++ sfx.data = (pyStr j).data ++ sfx.data :=
    List.cons_injective hd2
  exact pyStr_pos_inj hi hj (List.append_cancel_right hd3)

theorem candidate_ne_name (name : String) (i : Nat) :
    candidate (pathStem name) (pathSuffix name) i ≠ name := by
  intro h
  have hd := congrArg String.data h
  rw [candidate_data] at hd
  have hlen := congrArg List.length hd
  rw [← pathStem_append_pathSuffix name] at hlen
  simp [List.length_append] at hlen
  omega

theorem exists_free (occ : List String) (stem sfx : String) :
    ∃ i, candidate stem sfx (i + 1) ∉ occ := by
  by_contra hall
  push_neg at hall
  have hsub : (Finset.range (occ.length + 1)).image (fun i => candidate stem sfx (i + 1))
      ⊆ occ.toFinset := by
    intro x hx
    simp only [Finset.mem_image, Finset.mem_range] at hx
    obtain ⟨i, _, rfl⟩ := hx
    exact List.mem_toFinset.mpr (hall i)
  have hcard := Finset.card_le_card hsub
  rw [Finset.card_image_of_injOn, Finset.card_range] at hcard
  · have := List.toFinset_card_le occ
    omega
  · intro a _ b _ hab
    have := candidate_inj stem sfx (Nat.le_add_left 1 a) (Nat.le_add_left 1 b) hab
    omega

/-- ensure_unique_path from the source.  The destination directory contents
are the explicit list `occ` of occupied names; a path exists exactly when
its name is in `occ`.  The unbounded while loop returning the first free
candidate stem-i.suffix for i = 1, 2, ... is the candidate at the least
free index. -/
def ensure_unique_path (occ : List String) (name : String) : String :=
  if name ∈ occ then
    candidate (pathStem name) (pathSuffix name)
      (Nat.find (exists_free occ (pathStem name) (pathSuffix name)) + 1)
  else name

theorem ensure_unique_path_not_mem {occ : List String} {name : String}
    (h : name ∉ occ) : ensure_unique_path occ name = name := by
  simp [ensure_unique_path, h]

theorem ensure_unique_path_min {occ : List String} {name : String} (h : name ∈ occ) :
    ∃ i, 1 ≤ i ∧
      ensure_unique_path occ name = candidate (pathStem name) (pathSuffix name) i ∧
      candidate (pathStem name) (pathSuffix name) i ∉ occ ∧
      ∀ j, 1 ≤ j → j < i → candidate (pathStem name) (pathSuffix name) j ∈ occ := by
  refine ⟨Nat.find (exists_free occ (pathStem name) (pathSuffix name)) + 1, by omega, ?_, ?_, ?_⟩
  · simp [ensure_unique_path, h]
  · exact Nat.find_spec (exists_free occ (pathStem name) (pathSuffix name))
  · intro j hj1 hj2
    obtain ⟨j0, rfl⟩ := Nat.exists_eq_add_of_le hj1
    have := Nat.find_min (exists_free occ (pathStem name) (pathSuffix name))
      (m := j0) (by omega)
    simpa [Nat.add_comm] using this

theorem ensure_unique_path_eq_candidate {occ : List String} {name : String} {k : Nat}
    (hmem : name ∈ occ) (hk : 1 ≤ k)
    (hfree : candidate (pathStem name) (pathSuffix name) k ∉ occ)
    (hbelow : ∀ j, 1 ≤ j → j < k → candidate (pathStem name) (pathSuffix name) j ∈ occ) :
    ensure_unique_path occ name = candidate (pathStem name) (pathSuffix name) k := by
  obtain ⟨k0, rfl⟩ := Nat.exists_eq_add_of_le hk
  have hfind : Nat.find (exists_free occ (pathStem name) (pathSuffix name)) = k0 := by
    rw [Nat.find_eq_iff]
    constructor
    · simpa [Nat.add_comm] using hfree
    · intro m hm
      simp only [Decidable.not_not]
      exact hbelow (m + 1) (by omega) (by omega)
  simp [ensure_unique_path, hmem, hfind, Nat.add_comm]

/-- Outcome of the exif machinery for one file: the import of piexif fails,
loading the image raises, dumping or inserting raises, or everything
succeeds. -/
inductive ExifEnv where
  | importError : ExifEnv
  | loadError : ExifEnv
  | insertError : ExifEnv
  | ok : ExifEnv
deriving DecidableEq, Repr

/-- Body of update_exif_datetime before exception handling: the import
raises ImportError when piexif is unavailable, and the read-modify-write of
the metadata block raises on a corrupt container or any other failure. -/
def exifAttempt (env : ExifEnv) : Except String Bool :=
  match env with
  | .importError => .error "ImportError"
  | .loadError => .error "Exception"
  | .insertError => .error "Exception"
  | .ok => .ok true

/-- update_exif_datetime from the source: the two try blocks catch the
ImportError and every other exception, turning each into the return value
False; a successful write returns True. -/
def update_exif_datetime (env : ExifEnv) (dt : PyDatetime) : Bool :=
  match exifAttempt env with
  | .error _ => false
  | .ok b => b

/-- A file inside a source subfolder: its name, whether it is a regular
file, and how the exif machinery behaves on its copy. -/
structure FsFile where
  name : String
  isFile : Bool
  exif : ExifEnv
deriving DecidableEq, Repr

/-- A top-level entry of the source directory. -/
structure DirEntry where
  name : String
  isDir : Bool
  files : List FsFile
deriving DecidableEq, Repr

/-- Python str.lower, restricted to ASCII case folding.  On comparisons
against the all-ASCII TARGET_FILES the restriction is exact. -/
def pyLower (s : String) : String := ⟨s.data.map Char.toLower⟩

/-- Mutable state of the driver loop: names occupied in the destination
directory, the two counters, the number of local-timezone queries made so
far, and the log of files created together with the instant stamped onto
each (the set_fs_times call). -/
structure St where
  occ : List String
  copied : Nat
  skipped : Nat
  tzq : Nat
  written : List (String × PyDatetime)
deriving DecidableEq, Repr

/-- Body of the inner loop of main for one child of an accepted folder:
skip non-files and names outside TARGET_FILES (matched after lowercasing);
otherwise allocate a collision-free destination path for
folder_name-child_name, copy the file there, stamp it with dt, attempt the
exif update when requested (result ignored), and count the copy. -/
def processFile (write_exif : Bool) (folder_name : String) (dt : PyDatetime)
    (st : St) (child : FsFile) : St :=
  if !child.isFile then st
  else if pyLower child.name ∉ TARGET_FILES then st
  else
    let new_name := folder_name ++ "-" ++ child.name
    let out_path := ensure_unique_path st.occ new_name
    let _updated := if write_exif then update_exif_datetime child.exif dt else false
    { st with
      occ := out_path :: st.occ,
      written := st.written ++ [(out_path, dt)],
      copied := st.copied + 1 }

/-- Body of the outer loop of main for one source directory entry:
non-directories are ignored; directories failing FOLDER_RE count as
skipped; directories matching the pattern but rejected by the datetime
constructor count as skipped (the ValueError is caught); otherwise the
folder instant is resolved, with the local timezone queried at this moment
when use_utc is not set, and every child is processed. -/
def processEntry (use_utc write_exif : Bool) (localTzAt : Nat → Tz)
    (st : St) (entry : DirEntry) : St :=
  if !entry.isDir then st
  else if (folderReParse entry.name).isNone then { st with skipped := st.skipped + 1 }
  else
    match parse_folder_datetime (localTzAt st.tzq) entry.name use_utc with
    | .error _ => { st with skipped := st.skipped + 1 }
    | .ok dt =>
      let st1 := if use_utc then st else { st with tzq := st.tzq + 1 }
      entry.files.foldl (processFile write_exif entry.name dt) st1

/-- The world main runs against: the resolved source path, whether it is a
directory, its entries in sorted order, the names already occupying the
destination directory, and the oracle giving the local-timezone offset
returned by the k-th host query of the run. -/
structure Env where
  sourcePath : String
  sourceIsDir : Bool
  entries : List DirEntry
  destOccupied : List String
  localTzAt : Nat → Tz

/-- Result of main: either the SystemExit raised at startup (exit code and
message), or normal completion with the final loop state. -/
inductive MainOutcome where
  | exit : Nat → String → MainOutcome
  | done : St → MainOutcome
deriving DecidableEq

/-- Result of main together with the side effect of the unconditional
mkdir of the destination directory, performed before the source check. -/
structure MainResult where
  destCreated : Bool
  outcome : MainOutcome
deriving DecidableEq

/-- main from the source.  The destination directory is created first,
unconditionally; a missing or non-directory source then raises
SystemExit(message), which exits the process with status 1; otherwise the
driver loop folds over the sorted entries starting from zero counters. -/
def main (env : Env) (use_utc write_exif : Bool) : MainResult :=
  let destCreated := true
  if !env.sourceIsDir then
    { destCreated,
      outcome := .exit 1
        ("Source directory does not exist or is not a directory: " ++ env.sourcePath) }
  else
    { destCreated,
      outcome := .done (env.entries.foldl (processEntry use_utc write_exif env.localTzAt)
        { occ := env.destOccupied, copied := 0, skipped := 0, tzq := 0, written := [] }) }

/-- Files created by a run, with the instant stamped on each. -/
def writtenOf (r : MainResult) : List (String × PyDatetime) :=
  match r.outcome with
  | .done st => st.written
  | .exit _ _ => []

/-- Two-digit zero-padded decimal group. -/
def pad2 (n : Nat) : String := ⟨[Nat.digitChar (n / 10), Nat.digitChar (n % 10)]⟩

/-- Four-digit zero-padded decimal group. -/
def pad4 (n : Nat) : String :=
  ⟨[Nat.digitChar (n / 1000), Nat.digitChar (n / 100 % 10),
    Nat.digitChar (n / 10 % 10), Nat.digitChar (n % 10)]⟩

/-- The canonical folder name encoding six given field values in the
YYYY-MM-DD-HH-MM-SS shape. -/
def fmtFolder (y mo d h mi s : Nat) : String :=
  pad4 y ++ "-" ++ pad2 mo ++ "-" ++ pad2 d ++ "-" ++ pad2 h ++ "-" ++ pad2 mi ++ "-" ++ pad2 s

theorem digitChar_isDigit (k : Nat) (hk : k < 10) : (Nat.digitChar k).isDigit = true := by
  interval_cases k <;> rfl

theorem coreParse_fmt (y mo d h mi s : Nat) (hy : y ≤ 9999) (hmo : mo ≤ 99)
    (hd : d ≤ 99) (hh : h ≤ 99) (hmi : mi ≤ 99) (hs : s ≤ 99) :
    coreParse (fmtFolder y mo d h mi s).data = some ⟨y, mo, d, h, mi, s⟩ := by
  have hdata : (fmtFolder y mo d h mi s).data =
      [Nat.digitChar (y / 1000), Nat.digitChar (y / 100 % 10),
       Nat.digitChar (y / 10 % 10), Nat.digitChar (y % 10), '-',
       Nat.digitChar (mo / 10), Nat.digitChar (mo % 10), '-',
       Nat.digitChar (d / 10), Nat.digitChar (d % 10), '-',
       Nat.digitChar (h / 10), Nat.digitChar (h % 10), '-',
       Nat.digitChar (mi / 10), Nat.digitChar (mi % 10), '-',
       Nat.digitChar (s / 10), Nat.digitChar (s % 10)] := by
    simp [fmtFolder, pad4, pad2, String.data_append]
  rw [hdata]
  simp only [coreParse]
  rw [if_pos]
  · have e4 : val4 (Nat.digitChar (y / 1000)) (Nat.digitChar (y / 100 % 10))
        (Nat.digitChar (y / 10 % 10)) (Nat.digitChar (y % 10)) = y := by
      unfold val4
      rw [digitVal_digitChar _ (by omega), digitVal_digitChar _ (by omega),
        digitVal_digitChar _ (by omega), digitVal_digitChar _ (by omega)]
      omega
    have e2 : ∀ n : Nat, n ≤ 99 →
        val2 (Nat.digitChar (n / 10)) (Nat.digitChar (n % 10)) = n := by
      intro n hn
      unfold val2
      rw [digitVal_digitChar _ (by omega), digitVal_digitChar _ (by omega)]
      omega
    rw [e4, e2 mo hmo, e2 d hd, e2 h hh, e2 mi hmi, e2 s hs]
  · refine ⟨by simp, ?_, ?_, ?_, ?_, ?_, ?_⟩
    · exact ⟨digitChar_isDigit _ (by omega), digitChar_isDigit _ (by omega),
        digitChar_isDigit _ (by omega), digitChar_isDigit _ (by omega)⟩
    all_goals exact ⟨digitChar_isDigit _ (by omega), digitChar_isDigit _ (by omega)⟩

/-- Claim C1: every directory entry whose name does not match the six-group
hyphen pattern, or matches it but encodes an impossible calendar date,
makes the driver loop increment the skipped counter by exactly one and
leave everything else, the copied counter included, unchanged; the fold
then continues with the remaining entries from that state. -/
theorem claim_C1 (use_utc write_exif : Bool) (localTzAt : Nat → Tz)
    (st : St) (entry : DirEntry) (hdir : entry.isDir = true)
    (hbad : folderReParse entry.name = none ∨
      ∃ f, folderReParse entry.name = some f ∧ datetimeValid f = false) :
    processEntry use_utc write_exif localTzAt st entry =
      { st with skipped := st.skipped + 1 } ∧
    ∀ rest : List DirEntry,
      (entry :: rest).foldl (processEntry use_utc write_exif localTzAt) st =
        rest.foldl (processEntry use_utc write_exif localTzAt)
          { st with skipped := st.skipped + 1 } := by
  have h1 : processEntry use_utc write_exif localTzAt st entry =
      { st with skipped := st.skipped + 1 } := by
    unfold processEntry
    rw [hdir]
    rcases hbad with hnone | ⟨f, hf, hval⟩
    · simp [hnone]
    · simp [hf, parse_folder_datetime, hval]
  exact ⟨h1, fun rest => by rw [List.foldl_cons, h1]⟩

/-- Witness for C1 at the impossible date 2022-13-01-00-00-00. -/
theorem claim_C1_witness :
    processEntry false false (fun _ => Tz.utc) ⟨[], 0, 0, 0, []⟩
      ⟨"2022-13-01-00-00-00", true, []⟩ =
      { occ := [], copied := 0, skipped := 1, tzq := 0, written := [] } :=
  (claim_C1 false false (fun _ => Tz.utc) ⟨[], 0, 0, 0, []⟩
    ⟨"2022-13-01-00-00-00", true, []⟩ rfl
    (Or.inr ⟨⟨2022, 13, 1, 0, 0, 0⟩, by decide, by decide⟩)).1

/-- Claim C2: the folder name formatting the six fields parses back to
exactly those six integers in order, and on a valid calendar date the
UTC-mode parse returns the datetime built directly from those fields with
the UTC timezone attached. -/
theorem claim_C2 (y mo d h mi s : Nat) (tzNow : Tz) (hy : y ≤ 9999)
    (hmo : mo ≤ 99) (hd : d ≤ 99) (hh : h ≤ 99) (hmi : mi ≤ 99) (hs : s ≤ 99) :
    folderReParse (fmtFolder y mo d h mi s) = some ⟨y, mo, d, h, mi, s⟩ ∧
    (datetimeValid ⟨y, mo, d, h, mi, s⟩ = true →
      parse_folder_datetime tzNow (fmtFolder y mo d h mi s) true =
        .ok { year := y, month := mo, day := d, hour := h, minute := mi,
              second := s, tz := some Tz.utc }) := by
  have hp : folderReParse (fmtFolder y mo d h mi s) = some ⟨y, mo, d, h, mi, s⟩ := by
    unfold folderReParse
    rw [coreParse_fmt y mo d h mi s hy hmo hd hh hmi hs]
  refine ⟨hp, fun hval => ?_⟩
  unfold parse_folder_datetime
  rw [hp]
  simp [hval]

/-- Witness for C2 at 2022-11-07-15-09-47. -/
theorem claim_C2_witness :
    folderReParse (fmtFolder 2022 11 7 15 9 47) = some ⟨2022, 11, 7, 15, 9, 47⟩ ∧
    parse_folder_datetime Tz.utc (fmtFolder 2022 11 7 15 9 47) true =
      .ok ⟨2022, 11, 7, 15, 9, 47, some Tz.utc⟩ := by
  have h := claim_C2 2022 11 7 15 9 47 Tz.utc (by decide) (by decide) (by decide)
    (by decide) (by decide) (by decide)
  exact ⟨h.1, h.2 (by decide)⟩

/-- Claim C3: ensure_unique_path returns the desired path unchanged when it
is unoccupied; otherwise it returns stem-i.ext for the least index i at
least 1 whose candidate is unoccupied, every smaller positive index being
occupied. -/
theorem claim_C3 (occ : List String) (name : String) :
    (name ∉ occ → ensure_unique_path occ name = name) ∧
    (name ∈ occ → ∃ i, 1 ≤ i ∧
      ensure_unique_path occ name = candidate (pathStem name) (pathSuffix name) i ∧
      candidate (pathStem name) (pathSuffix name) i ∉ occ ∧
      ∀ j, 1 ≤ j → j < i → candidate (pathStem name) (pathSuffix name) j ∈ occ) :=
  ⟨fun h => ensure_unique_path_not_mem h, fun h => ensure_unique_path_min h⟩

/-- Witness for C3 on an empty destination directory. -/
theorem claim_C3_witness : ensure_unique_path [] "x.jpg" = "x.jpg" :=
  (claim_C3 [] "x.jpg").1 (by decide)

/-- Claim C5: update_exif_datetime converts every exception of its body,
the missing piexif capability included, into the return value False and
otherwise reports the success value of the body; and in the driver a
qualifying file is counted as copied whatever the exif machinery does. -/
theorem claim_C5 (env : ExifEnv) (dt : PyDatetime) :
    (∀ e, exifAttempt env = .error e → update_exif_datetime env dt = false) ∧
    (∀ b, exifAttempt env = .ok b → update_exif_datetime env dt = b) ∧
    (∀ (write_exif : Bool) (folder_name : String) (st : St) (child : FsFile),
      child.isFile = true → pyLower child.name ∈ TARGET_FILES →
      (processFile write_exif folder_name dt st child).copied = st.copied + 1) := by
  refine ⟨?_, ?_, ?_⟩
  · intro e he
    unfold update_exif_datetime
    rw [he]
  · intro b hb
    unfold update_exif_datetime
    rw [hb]
  · intro w fn st child hf hmem
    unfold processFile
    rw [hf]
    simp [hmem]

/-- Witness for C5 with a raising metadata load and a qualifying file. -/
theorem claim_C5_witness :
    update_exif_datetime ExifEnv.loadError ⟨2022, 11, 7, 15, 9, 47, some Tz.utc⟩ = false ∧
    (processFile true "2022-11-07-15-09-47" ⟨2022, 11, 7, 15, 9, 47, some Tz.utc⟩
      ⟨[], 0, 0, 0, []⟩ ⟨"primary.jpg", true, ExifEnv.loadError⟩).copied = 0 + 1 := by
  have h := claim_C5 ExifEnv.loadError ⟨2022, 11, 7, 15, 9, 47, some Tz.utc⟩
  exact ⟨h.1 "Exception" rfl,
    h.2.2 true "2022-11-07-15-09-47" ⟨[], 0, 0, 0, []⟩
      ⟨"primary.jpg", true, ExifEnv.loadError⟩ rfl (by decide)⟩

/-- Claim C6: a missing or non-directory source makes main terminate at
startup with exit status 1 and a message naming the resolved source path,
and the loop state with its counters is never produced. -/
theorem claim_C6 (env : Env) (use_utc write_exif : Bool)
    (h : env.sourceIsDir = false) :
    main env use_utc write_exif =
      { destCreated := true,
        outcome := .exit 1
          ("Source directory does not exist or is not a directory: " ++ env.sourcePath) } ∧
    ∀ st, (main env use_utc write_exif).outcome ≠ .done st := by
  constructor
  · simp [main, h]
  · intro st hc
    simp [main, h] at hc

/-- Witness for C6 with a missing source directory. -/
theorem claim_C6_witness :
    main ⟨"src", false, [], [], fun _ => Tz.utc⟩ false false =
      { destCreated := true,
        outcome := .exit 1
          ("Source directory does not exist or is not a directory: " ++ "src") } :=
  (claim_C6 ⟨"src", false, [], [], fun _ => Tz.utc⟩ false false rfl).1

/-- Claim C8: within an accepted folder a file entry is copied, with its
state effects, exactly when its lowercased name is in TARGET_FILES, and a
file outside the set changes nothing; MERGED.JPG lowercases to the same
key as merged.jpg, while thumbnail.png is not in the set. -/
theorem claim_C8 (write_exif : Bool) (folder_name : String) (dt : PyDatetime)
    (st : St) (child : FsFile) (hf : child.isFile = true) :
    ((pyLower child.name ∈ TARGET_FILES →
        processFile write_exif folder_name dt st child =
          { st with
            occ := ensure_unique_path st.occ (folder_name ++ "-" ++ child.name) :: st.occ,
            written := st.written ++
              [(ensure_unique_path st.occ (folder_name ++ "-" ++ child.name), dt)],
            copied := st.copied + 1 }) ∧
      (pyLower child.name ∉ TARGET_FILES →
        processFile write_exif folder_name dt st child = st)) ∧
    pyLower "MERGED.JPG" = pyLower "merged.jpg" ∧
    pyLower "thumbnail.png" ∉ TARGET_FILES := by
  refine ⟨⟨?_, ?_⟩, by decide, by decide⟩
  · intro hmem
    unfold processFile
    rw [hf]
    simp [hmem]
  · intro hmem
    unfold processFile
    rw [hf]
    simp [hmem]

/-- Witness for C8: a non-target file in an accepted folder leaves the
state untouched. -/
theorem claim_C8_witness :
    processFile false "2022-11-07-15-09-47" ⟨2022, 11, 7, 15, 9, 47, some Tz.utc⟩
      ⟨[], 0, 0, 0, []⟩ ⟨"thumbnail.png", true, ExifEnv.ok⟩ = ⟨[], 0, 0, 0, []⟩ :=
  ((claim_C8 false "2022-11-07-15-09-47" ⟨2022, 11, 7, 15, 9, 47, some Tz.utc⟩
    ⟨[], 0, 0, 0, []⟩ ⟨"thumbnail.png", true, ExifEnv.ok⟩ rfl).1.2 (by decide))

/-- Claim C9: the destination directory is created before the source check,
so a run aborting on a bad source still has the destination created. -/
theorem claim_C9 (env : Env) (use_utc write_exif : Bool)
    (h : env.sourceIsDir = false) :
    (main env use_utc write_exif).destCreated = true ∧
    ∃ msg, (main env use_utc write_exif).outcome = .exit 1 msg := by
  refine ⟨by simp [main, h], ?_⟩
  exact ⟨"Source directory does not exist or is not a directory: " ++ env.sourcePath,
    by simp [main, h]⟩

/-- Witness for C9 with a missing source directory. -/
theorem claim_C9_witness :
    (main ⟨"src", false, [], [], fun _ => Tz.utc⟩ false false).destCreated = true ∧
    ∃ msg, (main ⟨"src", false, [], [], fun _ => Tz.utc⟩ false false).outcome = .exit 1 msg :=
  claim_C9 ⟨"src", false, [], [], fun _ => Tz.utc⟩ false false rfl

/-- Claim C10: the destination name is the folder name, a hyphen, and the
original file name with its character case preserved, even though
membership was tested on the lowercased name. -/
theorem claim_C10 (write_exif : Bool) (folder_name : String) (dt : PyDatetime)
    (st : St) (child : FsFile) (hf : child.isFile = true)
    (hmem : pyLower child.name ∈ TARGET_FILES)
    (hfree : (folder_name ++ "-" ++ child.name) ∉ st.occ) :
    (processFile write_exif folder_name dt st child).written =
      st.written ++ [(folder_name ++ "-" ++ child.name, dt)] := by
  unfold processFile
  rw [hf]
  simp [hmem, ensure_unique_path_not_mem hfree]

/-- Witness for C10: MERGED.JPG in folder F lands as F-MERGED.JPG, not as
F-merged.jpg. -/
theorem claim_C10_witness :
    (processFile false "F" ⟨2022, 11, 7, 15, 9, 47, some Tz.utc⟩
      ⟨[], 0, 0, 0, []⟩ ⟨"MERGED.JPG", true, ExifEnv.ok⟩).written =
      [] ++ [("F" ++ "-" ++ "MERGED.JPG", ⟨2022, 11, 7, 15, 9, 47, some Tz.utc⟩)] ∧
    "F" ++ "-" ++ "MERGED.JPG" ≠ "F-merged.jpg" :=
  ⟨claim_C10 false "F" ⟨2022, 11, 7, 15, 9, 47, some Tz.utc⟩
    ⟨[], 0, 0, 0, []⟩ ⟨"MERGED.JPG", true, ExifEnv.ok⟩ rfl (by decide) (by decide),
   by decide⟩

/-- A run with two valid folders during which the host local offset
changes between the first and the second timezone query. -/
def tzCexEnv : Env :=
  { sourcePath := "src"
    sourceIsDir := true
    entries :=
      [⟨"2022-11-07-15-09-47", true, [⟨"primary.jpg", true, ExifEnv.ok⟩]⟩,
       ⟨"2023-01-02-03-04-05", true, [⟨"primary.jpg", true, ExifEnv.ok⟩]⟩]
    destOccupied := []
    localTzAt := fun k => if k = 0 then Tz.localOffset 0 else Tz.localOffset 60 }

/-- Counterexample to claim C4: the local offset is not captured once at
startup and reused; in this run the file of the second folder is stamped
with a timezone different from the offset the host reported at the first
query, because the code queries the host anew inside each parse. -/
theorem claim_C4_counterexample :
    ¬ ∀ p ∈ writtenOf (main tzCexEnv false false),
        p.2.tz = some (tzCexEnv.localTzAt 0) := by
  decide

/-- Claim C4 (amended): without the UTC flag, the resolver interprets the
folder fields using the host zone offset queried at the moment that folder
is parsed, one fresh query per successfully parsed folder; the state
records the extra query and every file of the folder is stamped with that
just-queried offset. -/
theorem claim_C4_amended (write_exif : Bool) (localTzAt : Nat → Tz) (st : St)
    (entry : DirEntry) (f : FolderFields) (hdir : entry.isDir = true)
    (hp : folderReParse entry.name = some f) (hv : datetimeValid f = true) :
    processEntry false write_exif localTzAt st entry =
      entry.files.foldl
        (processFile write_exif entry.name
          { year := f.y, month := f.mo, day := f.d, hour := f.h, minute := f.mi,
            second := f.s, tz := some (localTzAt st.tzq) })
        { st with tzq := st.tzq + 1 } := by
  unfold processEntry
  rw [hdir]
  simp [hp, parse_folder_datetime, hv]

/-- Witness for the amended C4: a folder parsed with zero prior queries is
stamped with the offset of query zero and consumes one query. -/
theorem claim_C4_witness :
    processEntry false false
      (fun k => if k = 0 then Tz.localOffset 0 else Tz.localOffset 60)
      ⟨[], 0, 0, 0, []⟩
      ⟨"2022-11-07-15-09-47", true, [⟨"primary.jpg", true, ExifEnv.ok⟩]⟩ =
      [(⟨"primary.jpg", true, ExifEnv.ok⟩ : FsFile)].foldl
        (processFile false "2022-11-07-15-09-47"
          ⟨2022, 11, 7, 15, 9, 47, some (Tz.localOffset 0)⟩)
        ⟨[], 0, 0, 1, []⟩ :=
  claim_C4_amended false
    (fun k => if k = 0 then Tz.localOffset 0 else Tz.localOffset 60)
    ⟨[], 0, 0, 0, []⟩
    ⟨"2022-11-07-15-09-47", true, [⟨"primary.jpg", true, ExifEnv.ok⟩]⟩
    ⟨2022, 11, 7, 15, 9, 47⟩ rfl (by decide) (by decide)

/-- Repeated allocation: request the same desired name n times, creating a
file at the returned path after each request. -/
def allocRepeat (name : String) : Nat → List String → List String
  | 0, _ => []
  | n + 1, occ =>
    let p := ensure_unique_path occ name
    p :: allocRepeat name n (p :: occ)

theorem allocRepeat_from (name : String) (n : Nat) :
    ∀ (k : Nat) (occ : List String), 1 ≤ k →
    name ∈ occ →
    (∀ j, 1 ≤ j → j < k → candidate (pathStem name) (pathSuffix name) j ∈ occ) →
    (∀ j, k ≤ j → candidate (pathStem name) (pathSuffix name) j ∉ occ) →
    allocRepeat name n occ =
      (List.range n).map (fun j => candidate (pathStem name) (pathSuffix name) (k + j)) := by
  induction n with
  | zero => intro k occ _ _ _ _; rfl
  | succ n ih =>
    intro k occ hk hmem hbelow habove
    have hstep : ensure_unique_path occ name = candidate (pathStem name) (pathSuffix name) k :=
      ensure_unique_path_eq_candidate hmem hk (habove k le_rfl) hbelow
    show (ensure_unique_path occ name) ::
        allocRepeat name n (ensure_unique_path occ name :: occ) = _
    rw [hstep]
    rw [ih (k + 1) (candidate (pathStem name) (pathSuffix name) k :: occ) (by omega)
      (List.mem_cons_of_mem _ hmem) ?below ?above]
    case below =>
      intro j hj1 hj2
      rcases Nat.lt_or_ge j k with hlt | hge
      · exact List.mem_cons_of_mem _ (hbelow j hj1 hlt)
      · have : j = k := by omega
        subst this
        exact List.mem_cons_self _ _
    case above =>
      intro j hj hmemc
      rcases List.mem_cons.mp hmemc with hc | hc
      · have := candidate_inj (pathStem name) (pathSuffix name) (by omega) hk hc
        omega
      · exact habove j (by omega) hc
    rw [List.range_succ_eq_map, List.map_cons, List.map_map]
    refine congrArg₂ List.cons (congrArg _ (by omega)) ?_
    exact List.map_congr_left fun j hj => congrArg _ (by omega)

/-- Claim C7: requesting the same desired path N times in sequence on a
destination initially free of the path and of all its suffixed candidates,
creating a file after each request, yields the original path for the first
request and stem-1.ext through stem-(N-1).ext for the rest, all pairwise
distinct. -/
theorem claim_C7 (N : Nat) (occ0 : List String) (name : String) (hN : 1 ≤ N)
    (hname : name ∉ occ0)
    (hfresh : ∀ i, 1 ≤ i → candidate (pathStem name) (pathSuffix name) i ∉ occ0) :
    allocRepeat name N occ0 =
      name :: (List.range (N - 1)).map
        (fun j => candidate (pathStem name) (pathSuffix name) (1 + j)) ∧
    (allocRepeat name N occ0).Nodup := by
  obtain ⟨M, rfl⟩ : ∃ M, N = M + 1 := ⟨N - 1, by omega⟩
  have hfirst : ensure_unique_path occ0 name = name := ensure_unique_path_not_mem hname
  have hrest : allocRepeat name M (name :: occ0) =
      (List.range M).map (fun j => candidate (pathStem name) (pathSuffix name) (1 + j)) := by
    apply allocRepeat_from name M 1 (name :: occ0) le_rfl (List.mem_cons_self _ _)
    · intro j hj1 hj2
      omega
    · intro j hj hmemc
      rcases List.mem_cons.mp hmemc with hc | hc
      · exact candidate_ne_name name j hc
      · exact hfresh j hj hc
  have hlist : allocRepeat name (M + 1) occ0 =
      name :: (List.range M).map
        (fun j => candidate (pathStem name) (pathSuffix name) (1 + j)) := by
    show (ensure_unique_path occ0 name) ::
        allocRepeat name M (ensure_unique_path occ0 name :: occ0) = _
    rw [hfirst, hrest]
  refine ⟨by simpa using hlist, ?_⟩
  rw [hlist]
  refine List.nodup_cons.mpr ⟨?_, ?_⟩
  · intro hmem
    rw [List.mem_map] at hmem
    obtain ⟨j, _, hc⟩ := hmem
    exact candidate_ne_name name (1 + j) hc
  · refine List.Nodup.map ?_ (List.nodup_range M)
    intro a b hab
    have := candidate_inj (pathStem name) (pathSuffix name) (by omega) (by omega) hab
    omega

/-- Witness for C7: three requests for x.jpg on an empty destination. -/
theorem claim_C7_witness :
    allocRepeat "x.jpg" 3 [] =
      "x.jpg" :: (List.range 2).map
        (fun j => candidate (pathStem "x.jpg") (pathSuffix "x.jpg") (1 + j)) ∧
    (allocRepeat "x.jpg" 3 []).Nodup := by
  have h := claim_C7 3 [] "x.jpg" (by decide) (by simp)
    (fun i _ => by simp)
  simpa using h

end BeReal
